import Mathlib

/-!
Verification of the eligibility validation engine of the
Portal-SportsTextil repository (server/services/eligibility-service.ts,
full version with `save_fields`, `applyAuth` and `extractedData`).

The engine is shallowly embedded: JavaScript strings become `String`,
JSON values become the inductive `Json`, `undefined` becomes `none` of an
`Option`, and the HTTP exchange performed by `fetch` is abstracted as an
explicit `FetchOutcome` input (the response the network would deliver for
the request the rule builds).  JavaScript `||` on strings is `jsOrElse`
(empty string counts as falsy), and `===` on values that may be
`undefined` is `jsStrictEq` (objects and arrays of distinct provenance
compare unequal, as JS compares them by reference and the configured
expected value is never the same reference as a freshly parsed body).
-/

/-- JSON values, as produced by `response.json()` or stored in a rule
configuration.  Numbers are modelled as integers: every comparison the
engine performs is strict equality, and no arithmetic is done on them. -/
inductive Json where
  | null
  | bool (b : Bool)
  | num (n : Int)
  | str (s : String)
  | arr (elems : List Json)
  | obj (fields : List (String × Json))

/-- JavaScript truthiness of a JSON value (`null`, `false`, `0` and `""`
are falsy; arrays and objects are always truthy). -/
def Json.truthy : Json → Bool
  | .null => false
  | .bool b => b
  | .num n => n != 0
  | .str s => s != ""
  | .arr _ => true
  | .obj _ => true

/-- JavaScript strict equality (`===`) between two values that may be
`undefined` (`none`).  `undefined === undefined` holds; `undefined` is
not strictly equal to `null` or to anything else.  Arrays and objects
compare by reference: a configured expected value and a freshly parsed
response body are never the same reference, so they compare unequal. -/
def jsStrictEq : Option Json → Option Json → Bool
  | none, none => true
  | some a, some b =>
    match a, b with
    | .null, .null => true
    | .bool x, .bool y => x == y
    | .num x, .num y => x == y
    | .str x, .str y => x == y
    | _, _ => false
  | _, _ => false

/-- JavaScript `a || b` for an optional string `a`: `undefined` and the
empty string are falsy and select the default. -/
def jsOrElse (a : Option String) (b : String) : String :=
  match a with
  | some s => if s == "" then b else s
  | none => b

/-- `path.split('.')` on character lists (structural, so that proofs by
definitional reduction go through): splitting the empty string yields
one empty segment, exactly as in JavaScript. -/
def splitDots : List Char → List (List Char)
  | [] => [[]]
  | c :: cs =>
    let rest := splitDots cs
    if c == '.' then [] :: rest
    else
      match rest with
      | [] => [[c]]
      | r :: rs => (c :: r) :: rs

/-- Decimal reading of a canonical array index ("0", or digits with no
leading zero). -/
def decimalIndex? (cs : List Char) : Option Nat :=
  if cs.isEmpty then none
  else if cs.all Char.isDigit && (cs.length == 1 || cs.head? != some '0') then
    some (cs.foldl (fun n c => n * 10 + (c.toNat - 48)) 0)
  else none

/-- Property access `v[key]` on a JSON value: field lookup on objects,
decimal index lookup on arrays, `undefined` on primitives.  (Exotic JS
accesses such as `"abc"["1"]` or `arr["length"]` are not used by any
configured path in this engine and are modelled as `undefined`.) -/
def jsIndex : Json → String → Option Json
  | .obj fields, key =>
    match fields.find? (fun p => p.1 == key) with
    | some p => some p.2
    | none => none
  | .arr elems, key =>
    match decimalIndex? key.data with
    | some i => elems.get? i
    | none => none
  | _, _ => none

/-- `getNestedValue(obj, path)` from eligibility-service.ts: walks the
dot-delimited path with
`path.split('.').reduce((cur, k) => cur !== undefined && cur !== null ? cur[k] : undefined, obj)`. -/
def getNestedValue (v : Option Json) (path : String) : Option Json :=
  ((splitDots path.data).map (fun cs => (⟨cs⟩ : String))).foldl
    (fun current key =>
      match current with
      | none => none
      | some .null => none
      | some j => jsIndex j key)
    v

/-- `extracted[field] = value` / object spread: replace the value of an
existing key in place, or append the new binding at the end. -/
def upsert (l : List (String × Json)) (k : String) (v : Json) :
    List (String × Json) :=
  if l.any (fun p => p.1 == k) then
    l.map (fun p => if p.1 == k then (k, v) else p)
  else
    l ++ [(k, v)]

/-- `{ ...a, ...b }` on extracted-data objects: later bindings win. -/
def mergeObj (a b : List (String × Json)) : List (String × Json) :=
  b.foldl (fun acc kv => upsert acc kv.1 kv.2) a

/-- `extractFields(data, fields)` from eligibility-service.ts: keep every
field whose path resolves to a defined value (`null` is defined). -/
def extractFields (data : Json) (fields : List String) :
    List (String × Json) :=
  fields.foldl
    (fun acc field =>
      match getNestedValue (some data) field with
      | some v => upsert acc field v
      | none => acc)
    []

/-- `sub.startsWith pat` on character lists. -/
def listStarts : List Char → List Char → Bool
  | _, [] => true
  | [], _ :: _ => false
  | c :: cs, p :: ps => c == p && listStarts cs ps

/-- First-occurrence replacement on character lists, matching the
semantics of JavaScript `String.prototype.replace` with a string
pattern: only the first occurrence is replaced. -/
def replFirst : List Char → List Char → List Char → List Char
  | [], _, _ => []
  | c :: cs, pat, rep =>
    if listStarts (c :: cs) pat then rep ++ (c :: cs).drop pat.length
    else c :: replFirst cs pat rep

/-- `url.replace(pat, rep)` (string pattern: first occurrence only). -/
def replaceFirstStr (s pat rep : String) : String :=
  ⟨replFirst s.data pat.data rep.data⟩

/-- Does `pat` occur anywhere in `s` (JS `s.includes(pat)`). -/
def occursIn (s pat : List Char) : Bool :=
  match s with
  | [] => listStarts [] pat
  | _ :: cs => listStarts s pat || occursIn cs pat

/-- UTF-8 bytes of a code point, as natural numbers. -/
def utf8Bytes (n : Nat) : List Nat :=
  if n < 0x80 then [n]
  else if n < 0x800 then [0xC0 + n / 0x40, 0x80 + n % 0x40]
  else if n < 0x10000 then
    [0xE0 + n / 0x1000, 0x80 + (n / 0x40) % 0x40, 0x80 + n % 0x40]
  else
    [0xF0 + n / 0x40000, 0x80 + (n / 0x1000) % 0x40,
     0x80 + (n / 0x40) % 0x40, 0x80 + n % 0x40]

/-- Upper-case hexadecimal digit. -/
def hexDigitChar (n : Nat) : Char :=
  if n < 10 then Char.ofNat (48 + n) else Char.ofNat (55 + n)

/-- Characters `encodeURIComponent` leaves unescaped:
`A-Z a-z 0-9 - _ . ! ~ * ' ( )`. -/
def isUnreservedChar (c : Char) : Bool :=
  c.isAlphanum ||
    c == '-' || c == '_' || c == '.' || c == '!' || c == '~' ||
    c == '*' || c.toNat == 39 || c == '(' || c == ')'

/-- Percent-encoding of one character (UTF-8 bytes, upper-case hex). -/
def percentEncodeChar (c : Char) : List Char :=
  (utf8Bytes c.toNat).foldr
    (fun b acc => '%' :: hexDigitChar (b / 16) :: hexDigitChar (b % 16) :: acc)
    []

/-- JavaScript `encodeURIComponent`. -/
def encodeURIComponent (s : String) : String :=
  ⟨s.data.foldr
    (fun c acc =>
      (if isUnreservedChar c then [c] else percentEncodeChar c) ++ acc)
    []⟩

/-- `value.replace(/[.\-]/g, '')`: remove every dot and hyphen (and only
those characters). -/
def removeDotsDashes (v : String) : String :=
  ⟨v.data.filter (fun c => !(c == '.' || c == '-'))⟩

/-- `maskCpf` from eligibility-service.ts:
strip non-digits; fewer than 11 digits gives the fully masked
placeholder, otherwise the template literal
`digits.slice(0,3) + ".***.***." + digits.slice(9,11)`. -/
def maskCpf (cpf : String) : String :=
  let digits := cpf.data.filter Char.isDigit
  if digits.length < 11 then "***.***.***-**"
  else ⟨digits.take 3⟩ ++ ".***.***." ++ ⟨(digits.drop 9).take 2⟩

/-- `sanitizeUrl` from eligibility-service.ts: for each map entry, strip
dots and hyphens when the key is `cpf`, percent-encode, and replace the
placeholder `\x7bkey\x7d` in the URL (JS `replace` with a string
pattern: first occurrence only). -/
def sanitizeUrl (baseUrl : String) (params : List (String × String)) :
    String :=
  params.foldl
    (fun url kv =>
      let sanitizedValue :=
        if kv.1 == "cpf" then removeDotsDashes kv.2 else kv.2
      replaceFirstStr url ("\x7b" ++ kv.1 ++ "\x7d")
        (encodeURIComponent sanitizedValue))
    baseUrl

/-- Authentication descriptor of a rule (`request.auth`). -/
structure RuleAuth where
  type : String
  key_name : Option String
  key_value : Option String

/-- The `request` sub-record of an eligibility rule. -/
structure RuleRequest where
  url : String
  method : Option String
  params : List String
  headers : List (String × String)
  timeout_ms : Option Nat
  auth : Option RuleAuth

/-- The `validation` sub-record of an eligibility rule. -/
structure RuleValidation where
  mode : String
  allowed_status : Option (List Nat)
  path : Option String
  value : Option Json

/-- One configured eligibility rule (`EligibilityRule` in shared/schema). -/
structure EligibilityRule where
  type : String
  enabled : Bool
  request : RuleRequest
  validation : RuleValidation
  on_error : String
  error_message : Option String
  save_fields : Option (List String)

/-- The athlete record handed to the engine (`AthleteData`). -/
structure AthleteData where
  cpf : String
  nome : String
  email : Option String
  dataNascimento : Option String
  sexo : Option String

/-- Result of `validateExternalApi`: `{ ok, message?, extractedData? }`. -/
structure ValidationResult where
  ok : Bool
  message : Option String
  extractedData : Option (List (String × Json))

/-- Result of `executeEligibilityCheck`:
`{ eligible, messages, extractedData? }`. -/
structure EligibilityResult where
  eligible : Bool
  messages : List String
  extractedData : Option (List (String × Json))

/-- `(athleteData as any)[param]`: dynamic field access on the athlete
record; unknown parameter names yield `undefined`. -/
def athleteField (a : AthleteData) : String → Option String
  | "cpf" => some a.cpf
  | "nome" => some a.nome
  | "email" => a.email
  | "dataNascimento" => a.dataNascimento
  | "sexo" => a.sexo
  | _ => none

/-- `paramValues[k] = v` on a string map (insertion order, replace on
an existing key, as JS object assignment). -/
def upsertStr (l : List (String × String)) (k v : String) :
    List (String × String) :=
  if l.any (fun p => p.1 == k) then
    l.map (fun p => if p.1 == k then (k, v) else p)
  else
    l ++ [(k, v)]

/-- The parameter map built at the top of `validateExternalApi`: fields
named in `request.params` that are present on the athlete record
(`undefined`/`null` fields are omitted, not sent as empty strings). -/
def buildParamValues (rule : EligibilityRule) (a : AthleteData) :
    List (String × String) :=
  rule.request.params.foldl
    (fun acc p =>
      match athleteField a p with
      | some v => upsertStr acc p v
      | none => acc)
    []

/-- `applyAuth` from eligibility-service.ts: inject the configured
authentication into the URL or the headers.  A missing or empty
`key_value` degrades to a pass-through (misconfiguration, logged as a
warning in the source). -/
def applyAuth (url : String) (headers : List (String × String))
    (auth : Option RuleAuth) : String × List (String × String) :=
  match auth with
  | none => (url, headers)
  | some au =>
    if au.type == "none" then (url, headers)
    else
      let keyName := jsOrElse au.key_name ""
      let keyValue := jsOrElse au.key_value ""
      if keyValue == "" then (url, headers)
      else if au.type == "api_key_header" then
        (url,
         upsertStr headers (if keyName == "" then "X-API-Key" else keyName)
           keyValue)
      else if au.type == "api_key_query" then
        let separator := if occursIn url.data "?".data then "&" else "?"
        let paramName := if keyName == "" then "api_key" else keyName
        (url ++ separator ++ encodeURIComponent paramName ++ "=" ++
           encodeURIComponent keyValue,
         headers)
      else if au.type == "bearer_token" then
        (url, upsertStr headers "Authorization" ("Bearer " ++ keyValue))
      else (url, headers)

/-- The final request URL and headers built by `validateExternalApi`
before issuing the call: `sanitizeUrl`, an `Accept: application/json`
default merged with the static headers, then `applyAuth`. -/
def buildRequestTarget (rule : EligibilityRule) (a : AthleteData) :
    String × List (String × String) :=
  let paramValues := buildParamValues rule a
  let rawUrl := sanitizeUrl rule.request.url paramValues
  let baseHeaders :=
    rule.request.headers.foldl (fun acc kv => upsertStr acc kv.1 kv.2)
      [("Accept", "application/json")]
  applyAuth rawUrl baseHeaders rule.request.auth

/-- What `response.json()` would deliver for the received body. -/
inductive BodyJson where
  | malformed
  | parsed (j : Json)

/-- The outcome of the `fetch` call for one rule, abstracting the
network: the promise rejects (`transportError`, timeout or network), a
response with a status and a body arrives, or some unexpected exception
reaches the outer `catch` of `validateExternalApi`. -/
inductive FetchOutcome where
  | transportError (isTimeout : Bool)
  | response (status : Nat) (body : BodyJson)
  | unexpectedError

/-- The advisory message returned on an infrastructure failure when
`on_error = 'allow'`. -/
def tempUnavailableMsg : String :=
  "Validação externa temporariamente indisponível, inscrição permitida."

/-- The generic fallback used by `error_message || ...` on failures. -/
def unexpectedErrMsg : String := "Erro inesperado na validação externa."

/-- The `on_error` policy block, repeated verbatim at every
infrastructure-failure site of `validateExternalApi`:
`allow` succeeds with the advisory message, anything else fails with
`error_message || unexpectedErrMsg`. -/
def onErrorOutcome (rule : EligibilityRule) : ValidationResult :=
  if rule.on_error == "allow" then
    { ok := true, message := some tempUnavailableMsg, extractedData := none }
  else
    { ok := false, message := some (jsOrElse rule.error_message unexpectedErrMsg),
      extractedData := none }

/-- `validateExternalApi` from eligibility-service.ts, with the HTTP
exchange abstracted as the `outcome` argument.  Mirrors the source
line by line: transport failure applies `on_error`; 404 is a definitive
negative; `>= 500` applies `on_error`; the body is parsed when
`mode = 'json_compare'` or `save_fields` is non-empty (a parse failure
is an infrastructure failure only under `json_compare`); extraction
requires a truthy parsed body; then the two validation modes, and a
fail-open default for any other mode.  The outer `catch` is the
`unexpectedError` case. -/
def validateExternalApi (rule : EligibilityRule) (a : AthleteData)
    (outcome : FetchOutcome) : ValidationResult :=
  match outcome with
  | .unexpectedError => onErrorOutcome rule
  | .transportError _ => onErrorOutcome rule
  | .response status body =>
    if status == 404 then
      { ok := false, message := rule.error_message, extractedData := none }
    else if 500 ≤ status then onErrorOutcome rule
    else
      let saveFields := rule.save_fields.getD []
      let parseStep : Except ValidationResult (Option Json) :=
        if rule.validation.mode == "json_compare" || !saveFields.isEmpty then
          match body with
          | .parsed j => .ok (some j)
          | .malformed =>
            if rule.validation.mode == "json_compare" then
              .error (onErrorOutcome rule)
            else .ok none
        else .ok none
      match parseStep with
      | .error r => r
      | .ok responseData =>
        let extracted : Option (List (String × Json)) :=
          match responseData with
          | some j =>
            if j.truthy && !saveFields.isEmpty then
              some (extractFields j saveFields)
            else none
          | none => none
        if rule.validation.mode == "http_status" then
          let allowedStatuses := rule.validation.allowed_status.getD [200]
          if allowedStatuses.contains status then
            { ok := true, message := none, extractedData := extracted }
          else
            { ok := false, message := rule.error_message, extractedData := none }
        else if rule.validation.mode == "json_compare" then
          match responseData with
          | some j =>
            if j.truthy then
              let fieldPath := jsOrElse rule.validation.path ""
              let actualValue := getNestedValue (some j) fieldPath
              if jsStrictEq actualValue rule.validation.value then
                { ok := true, message := none, extractedData := extracted }
              else
                { ok := false, message := rule.error_message,
                  extractedData := none }
            else { ok := true, message := none, extractedData := extracted }
          | none => { ok := true, message := none, extractedData := extracted }
        else { ok := true, message := none, extractedData := extracted }

/-- The filter applied by `executeEligibilityCheck`:
`r.enabled && r.request?.url` (an absent or empty URL is falsy). -/
def activeRulePred (r : EligibilityRule) : Bool :=
  r.enabled && r.request.url != ""

/-- `executeEligibilityCheck` from eligibility-service.ts.  The network
is abstracted as `net`, mapping the position of a rule in the filtered
active list to the outcome of its `fetch`.  Rules run sequentially:
eligibility is the AND over all `api_rest` rule outcomes, messages of
failing rules are appended in rule order (a falsy message is not
pushed), and extracted data is merged with later rules winning. -/
def executeEligibilityCheck (a : AthleteData) (rules : List EligibilityRule)
    (net : Nat → FetchOutcome) : EligibilityResult :=
  let activeRules := rules.filter activeRulePred
  if activeRules.isEmpty then
    { eligible := true, messages := [], extractedData := none }
  else
    let final :=
      activeRules.enum.foldl
        (fun (acc : Bool × List String × List (String × Json)) p =>
          if p.2.type == "api_rest" then
            let result := validateExternalApi p.2 a (net p.1)
            let eligible' := if result.ok then acc.1 else false
            let messages' :=
              if result.ok then acc.2.1
              else
                match result.message with
                | some m => if m == "" then acc.2.1 else acc.2.1 ++ [m]
                | none => acc.2.1
            let extracted' :=
              match result.extractedData with
              | some e => mergeObj acc.2.2 e
              | none => acc.2.2
            (eligible', messages', extracted')
          else acc)
        (true, [], [])
    { eligible := final.1, messages := final.2.1,
      extractedData :=
        if final.2.2.isEmpty then none else some final.2.2 }

/-- A concrete athlete used by witnesses and counterexamples. -/
def testAthlete : AthleteData :=
  { cpf := "123.456.789-00", nome := "Maria", email := none,
    dataNascimento := none, sexo := none }

/-- A concrete request sub-record used by witnesses and counterexamples. -/
def testRequest : RuleRequest :=
  { url := "https://api.exemplo.com/pacientes/\x7bcpf\x7d",
    method := some "GET", params := ["cpf"], headers := [],
    timeout_ms := some 3000, auth := none }

/-- A rule in `http_status` mode whose allow-list contains 404: used to
refute the unrestricted status-allowlist claim. -/
def rule404Allowed : EligibilityRule :=
  { type := "api_rest", enabled := true, request := testRequest,
    validation := { mode := "http_status", allowed_status := some [404],
                    path := none, value := none },
    on_error := "block", error_message := some "Cadastro não encontrado.",
    save_fields := none }

example :
    validateExternalApi rule404Allowed testAthlete
      (.response 404 .malformed)
    = { ok := false, message := some "Cadastro não encontrado.",
        extractedData := none } := rfl

/-- A rule in `json_compare` mode expecting `apto === true`: used to
refute the unrestricted json-compare claim on a body parsing to `null`. -/
def ruleJsonApto : EligibilityRule :=
  { type := "api_rest", enabled := true, request := testRequest,
    validation := { mode := "json_compare", allowed_status := none,
                    path := some "apto", value := some (.bool true) },
    on_error := "block", error_message := some "Não apto.",
    save_fields := none }

example :
    validateExternalApi ruleJsonApto testAthlete
      (.response 200 (.parsed .null))
    = { ok := true, message := none, extractedData := none } := rfl

example :
    validateExternalApi ruleJsonApto testAthlete
      (.response 200 (.parsed (.obj [("apto", .bool true)])))
    = { ok := true, message := none, extractedData := none } := rfl

example :
    validateExternalApi ruleJsonApto testAthlete
      (.response 200 (.parsed (.obj [("apto", .str "true")])))
    = { ok := false, message := some "Não apto.", extractedData := none } := rfl

example :
    executeEligibilityCheck testAthlete [] (fun _ => .unexpectedError)
    = { eligible := true, messages := [], extractedData := none } := rfl

/-- A disabled rule: filtered out by `executeEligibilityCheck`. -/
def disabledRule : EligibilityRule :=
  { type := "api_rest", enabled := false, request := testRequest,
    validation := { mode := "http_status", allowed_status := some [200],
                    path := none, value := none },
    on_error := "block", error_message := some "Bloqueado.",
    save_fields := none }

/-- An `on_error = allow` rule used to exercise the infrastructure-failure
policy. -/
def ruleAllowPolicy : EligibilityRule :=
  { type := "api_rest", enabled := true, request := testRequest,
    validation := { mode := "http_status", allowed_status := some [200],
                    path := none, value := none },
    on_error := "allow", error_message := some "Indisponível.",
    save_fields := none }

/-- An `on_error = block` rule whose `error_message` is the empty string:
set, yet treated as falsy by `error_message || fallback`. -/
def ruleEmptyMessage : EligibilityRule :=
  { type := "api_rest", enabled := true, request := testRequest,
    validation := { mode := "http_status", allowed_status := some [200],
                    path := none, value := none },
    on_error := "block", error_message := some "",
    save_fields := none }

/-- A rule with an unrecognized validation mode and a `save_fields`
extraction list. -/
def ruleUnknownMode : EligibilityRule :=
  { type := "api_rest", enabled := true, request := testRequest,
    validation := { mode := "regex_match", allowed_status := none,
                    path := none, value := none },
    on_error := "block", error_message := some "Erro.",
    save_fields := some ["categoria"] }

theorem listStarts_nil (s : List Char) : listStarts s [] = true := by
  cases s <;> rfl

theorem listStarts_append_self : ∀ (pat suf : List Char),
    listStarts (pat ++ suf) pat = true
  | [], suf => listStarts_nil ([] ++ suf)
  | p :: ps, suf => by
    simp [listStarts, listStarts_append_self ps suf]

theorem replFirst_front (pat suf rep : List Char) (h : pat ≠ []) :
    replFirst (pat ++ suf) pat rep = rep ++ suf := by
  match pat, h with
  | p :: ps, _ =>
    have hs : listStarts (p :: (ps ++ suf)) (p :: ps) = true :=
      listStarts_append_self (p :: ps) suf
    rw [List.cons_append, replFirst, if_pos hs, ← List.cons_append,
      List.drop_left]

theorem contains_iff_mem (l : List Nat) (s : Nat) :
    l.contains s = true ↔ s ∈ l :=
  List.elem_iff

/-- A single-entry parameter map substitutes the encoded (cpf-sanitized)
value for the placeholder at the front of the template and leaves the
remainder of the template verbatim — even when the remainder contains
further occurrences of the same placeholder. -/
theorem sanitizeUrl_single (k v rest : String) :
    sanitizeUrl (("\x7b" ++ k ++ "\x7d") ++ rest) [(k, v)] =
      encodeURIComponent (if k == "cpf" then removeDotsDashes v else v)
        ++ rest := by
  show replaceFirstStr (("\x7b" ++ k ++ "\x7d") ++ rest)
      ("\x7b" ++ k ++ "\x7d")
      (encodeURIComponent (if k == "cpf" then removeDotsDashes v else v)) = _
  unfold replaceFirstStr
  rw [String.data_append]
  rw [replFirst_front _ _ _
    (by
      rw [String.data_append]
      exact List.append_ne_nil_of_right_ne_nil _ (by decide))]
  rfl

/-- C3: for every rule and every response with HTTP status 404,
`validateExternalApi` returns `{ok: false, message: rule.errorMessage}`.
The statement quantifies over all rules, hence over both `onError`
policies: the 404 outcome never consults `on_error`. -/
theorem claim3_http404_definitive (rule : EligibilityRule)
    (a : AthleteData) (body : BodyJson) :
    validateExternalApi rule a (.response 404 body) =
      { ok := false, message := rule.error_message, extractedData := none } :=
  rfl

/-- C9 (code bug evaluation): the code joins the masked middle groups to
the final two digits with a dot, not the hyphen of the canonical grouped
format: `maskCpf "123.456.789-00"` is `"123.***.***.00"`, while the
spec, the repository plan document and the function's own short-input
placeholder use `"-"` before the last group.  The under-11-digit branch
does match the claim. -/
theorem claim9_maskCpf_dot_not_hyphen :
    maskCpf "123.456.789-00" = "123.***.***.00" ∧
    "123.***.***.00" ≠ "123.***.***-00" ∧
    maskCpf "123" = "***.***.***-**" :=
  ⟨rfl, by decide, rfl⟩

/-- C7 (counterexample): JS `String.prototype.replace` with a string
pattern replaces only the first occurrence, so a template repeating the
same `\x7bcpf\x7d` placeholder keeps its second occurrence verbatim. -/
theorem claim7_counterexample :
    sanitizeUrl "\x7bcpf\x7d/\x7bcpf\x7d" [("cpf", "1")] = "1/\x7bcpf\x7d" ∧
    "1/\x7bcpf\x7d" ≠ "1/1" :=
  ⟨rfl, by decide⟩

/-- First-occurrence replacement, general form: when no occurrence of
`pat` starts before position `pre.length` in `pre ++ pat ++ suf` (that
is, the exhibited occurrence is the first one), only that occurrence is
replaced and both the prefix and the suffix are kept verbatim. -/
theorem replFirst_at_first : ∀ (pre pat suf rep : List Char),
    pat ≠ [] →
    (∀ i, i < pre.length →
      listStarts ((pre ++ pat ++ suf).drop i) pat = false) →
    replFirst (pre ++ pat ++ suf) pat rep = pre ++ rep ++ suf := by
  intro pre
  induction pre with
  | nil =>
    intro pat suf rep hpat _
    simpa using replFirst_front pat suf rep hpat
  | cons c cs ih =>
    intro pat suf rep hpat hfirst
    have h0 : listStarts (c :: (cs ++ (pat ++ suf))) pat = false := by
      have h := hfirst 0 (by simp)
      simpa [List.append_assoc] using h
    simp only [List.cons_append]
    rw [replFirst, if_neg (by simp [h0])]
    refine congrArg (c :: ·) (ih pat suf rep hpat ?_)
    intro i hi
    have h := hfirst (i + 1) (by simpa using Nat.succ_lt_succ hi)
    simpa [List.cons_append] using h

/-- When `pat` occurs nowhere in `s`, replacement leaves `s` unchanged
(unresolved placeholders stay verbatim). -/
theorem replFirst_absent : ∀ (st pat rep : List Char),
    (∀ i, listStarts (st.drop i) pat = false) →
    replFirst st pat rep = st := by
  intro st
  induction st with
  | nil => intro pat rep _; rfl
  | cons c cs ih =>
    intro pat rep h
    have h0 : listStarts (c :: cs) pat = false := by simpa using h 0
    rw [replFirst, if_neg (by simp [h0])]
    exact congrArg (c :: ·) (ih pat rep (fun i => by simpa using h (i + 1)))

/-- C7 (amended): for EVERY URL template and parameter map,
`sanitizeUrl` performs, for each key present in the map in order, one
substitution of the URL-percent-encoded (cpf-sanitized) value into the
current template (first conjunct); and that substitution step replaces
exactly the FIRST occurrence of `\x7bkey\x7d` — the prefix before it
and everything after it, including any further occurrence of the same
placeholder, are left verbatim (second conjunct) — and leaves the
template unchanged when the placeholder does not occur at all (third
conjunct). -/
theorem claim7_first_occurrence_only :
    (∀ (baseUrl k v : String) (ps : List (String × String)),
      sanitizeUrl baseUrl ((k, v) :: ps) =
        sanitizeUrl
          (replaceFirstStr baseUrl ("\x7b" ++ k ++ "\x7d")
            (encodeURIComponent
              (if k == "cpf" then removeDotsDashes v else v)))
          ps) ∧
    (∀ (pre pat suf rep : String),
      pat ≠ "" →
      (∀ i, i < pre.data.length →
        listStarts ((pre.data ++ pat.data ++ suf.data).drop i) pat.data
          = false) →
      replaceFirstStr (pre ++ pat ++ suf) pat rep = pre ++ rep ++ suf) ∧
    (∀ (st pat rep : String),
      (∀ i, listStarts (st.data.drop i) pat.data = false) →
      replaceFirstStr st pat rep = st) := by
  refine ⟨fun baseUrl k v ps => rfl, ?_, ?_⟩
  · intro pre pat suf rep hpat hfirst
    have hd : pat.data ≠ [] := fun hnil => hpat (String.ext hnil)
    unfold replaceFirstStr
    rw [String.data_append, String.data_append,
      replFirst_at_first pre.data pat.data suf.data rep.data hd hfirst]
    rfl
  · intro st pat rep h
    unfold replaceFirstStr
    rw [replFirst_absent st.data pat.data rep.data h]

/-- C7 (witness): a concrete template with a prefix before the first
placeholder occurrence and a second occurrence after it: only the first
is replaced, prefix and tail stay verbatim. -/
theorem claim7_witness :
    replaceFirstStr ("https://x/" ++ "\x7bcpf\x7d" ++ "/\x7bcpf\x7d")
      "\x7bcpf\x7d" "12345678900"
      = "https://x/" ++ "12345678900" ++ "/\x7bcpf\x7d" :=
  claim7_first_occurrence_only.2.1 "https://x/" "\x7bcpf\x7d"
    "/\x7bcpf\x7d" "12345678900" (by decide) (by decide)

/-- C8 (counterexample): the cpf sanitization is `replace(/[.\-]/g,'')`,
which strips only dots and hyphens: a letter in the value survives,
whereas stripping "all non-digit characters" would delete it. -/
theorem claim8_counterexample :
    sanitizeUrl "https://x/\x7bcpf\x7d" [("cpf", "1a1")] = "https://x/1a1" ∧
    "1a1".data.filter Char.isDigit = "11".data ∧
    "https://x/1a1" ≠ "https://x/11" :=
  ⟨rfl, by decide, by decide⟩

/-- C8 (amended): for the `cpf` key, `sanitizeUrl` strips exactly the
dots and hyphens from the value (not all non-digit characters) before
percent-encoding and substituting; on the punctuated-ID example of the
claim this agrees with the claimed output. -/
theorem claim8_cpf_strips_dots_and_dashes :
    (∀ v rest : String,
      sanitizeUrl (("\x7b" ++ "cpf" ++ "\x7d") ++ rest) [("cpf", v)] =
        encodeURIComponent (removeDotsDashes v) ++ rest) ∧
    sanitizeUrl "https://x/\x7bcpf\x7d" [("cpf", "123.456.789-00")] =
      "https://x/12345678900" :=
  ⟨fun v rest => sanitizeUrl_single "cpf" v rest, rfl⟩

/-- C1 (counterexample): a rule in `http_status` mode whose allow-list
is `[404]` receives a 404 response: the status is a member of
`allowedStatus`, yet the 404 branch fires first and the rule reports
`ok = false` with `errorMessage`. -/
theorem claim1_counterexample :
    (rule404Allowed.validation.allowed_status.getD [200]).contains 404
      = true ∧
    validateExternalApi rule404Allowed testAthlete
      (.response 404 .malformed) =
      { ok := false, message := some "Cadastro não encontrado.",
        extractedData := none } :=
  ⟨rfl, rfl⟩

/-- C1 (amended): for rules in `http_status` mode and responses whose
status is neither 404 nor a 5xx, `validateExternalApi` succeeds iff the
status is a member of `allowedStatus` (default `[200]`); a non-member
status yields `{ok: false, message: rule.errorMessage}`.  (404 and 5xx
responses are intercepted by the earlier branches.) -/
theorem claim1_allowlist_non404_non5xx (rule : EligibilityRule)
    (a : AthleteData) (status : Nat) (body : BodyJson)
    (hmode : rule.validation.mode = "http_status")
    (h404 : status ≠ 404) (h5xx : status < 500) :
    ((validateExternalApi rule a (.response status body)).ok = true ↔
      status ∈ rule.validation.allowed_status.getD [200]) ∧
    (status ∉ rule.validation.allowed_status.getD [200] →
      validateExternalApi rule a (.response status body) =
        { ok := false, message := rule.error_message,
          extractedData := none }) := by
  have hb : (status == 404) = false := beq_eq_false_iff_ne.mpr h404
  have h5 : ¬ (500 ≤ status) := by omega
  have hjc : (rule.validation.mode == "json_compare") = false := by
    rw [hmode]; decide
  have hhs : (rule.validation.mode == "http_status") = true := by
    rw [hmode]; decide
  constructor
  · cases body <;>
      by_cases hsf : (rule.save_fields.getD []).isEmpty <;>
        by_cases hc : status ∈ rule.validation.allowed_status.getD [200] <;>
          simp [validateExternalApi, hb, h5, hjc, hhs, hsf, hc,
            contains_iff_mem]
  · intro hnc
    cases body <;>
      by_cases hsf : (rule.save_fields.getD []).isEmpty <;>
        simp [validateExternalApi, hb, h5, hjc, hhs, hsf, hnc,
          contains_iff_mem]

/-- C1 (witness): a 204 response against an allow-list `[200, 204]`. -/
theorem claim1_witness :
    (validateExternalApi
      { type := "api_rest", enabled := true, request := testRequest,
        validation := { mode := "http_status",
                        allowed_status := some [200, 204],
                        path := none, value := none },
        on_error := "block", error_message := some "Erro.",
        save_fields := none }
      testAthlete (.response 204 .malformed)).ok = true := by
  have h := claim1_allowlist_non404_non5xx
    { type := "api_rest", enabled := true, request := testRequest,
      validation := { mode := "http_status",
                      allowed_status := some [200, 204],
                      path := none, value := none },
      on_error := "block", error_message := some "Erro.",
      save_fields := none }
    testAthlete 204 .malformed rfl (by decide) (by decide)
  exact h.1.mpr (by decide)

/-- C2 (counterexample): a 200 response whose body is the valid JSON
document `null`: the body parses successfully, resolving `"apto"` in it
yields `undefined`, which is not strictly equal to the expected `true` —
yet the `mode === 'json_compare' && responseData` guard sees a falsy
parsed value, skips the comparison and the rule succeeds. -/
theorem claim2_counterexample :
    validateExternalApi ruleJsonApto testAthlete
      (.response 200 (.parsed .null)) =
      { ok := true, message := none, extractedData := none } ∧
    jsStrictEq (getNestedValue (some .null) "apto")
      (some (.bool true)) = false :=
  ⟨rfl, by decide⟩

/-- C2 (amended): for rules in `json_compare` mode and non-404, non-5xx
responses whose body parses to a TRUTHY JSON value, the rule succeeds
iff the value at `validation.path` is strictly equal (`===`,
type-sensitive) to `validation.value`, and fails with `errorMessage`
otherwise; when the parsed body is falsy (`null`, `false`, `0`, `""`)
the comparison is skipped and the rule succeeds unconditionally. -/
theorem claim2_json_compare_strict (rule : EligibilityRule)
    (a : AthleteData) (status : Nat) (j : Json)
    (hmode : rule.validation.mode = "json_compare")
    (h404 : status ≠ 404) (h5xx : status < 500) :
    (j.truthy = true →
      (((validateExternalApi rule a (.response status (.parsed j))).ok
          = true ↔
        jsStrictEq
          (getNestedValue (some j) (jsOrElse rule.validation.path ""))
          rule.validation.value = true) ∧
      (jsStrictEq
          (getNestedValue (some j) (jsOrElse rule.validation.path ""))
          rule.validation.value = false →
        validateExternalApi rule a (.response status (.parsed j)) =
          { ok := false, message := rule.error_message,
            extractedData := none }))) ∧
    (j.truthy = false →
      (validateExternalApi rule a (.response status (.parsed j))).ok
        = true) := by
  have hb : (status == 404) = false := beq_eq_false_iff_ne.mpr h404
  have h5 : ¬ (500 ≤ status) := by omega
  have hjc : (rule.validation.mode == "json_compare") = true := by
    rw [hmode]; decide
  have hhs : (rule.validation.mode == "http_status") = false := by
    rw [hmode]; decide
  constructor
  · intro ht
    constructor
    · by_cases hsf : (rule.save_fields.getD []).isEmpty <;>
        by_cases hq : jsStrictEq
            (getNestedValue (some j) (jsOrElse rule.validation.path ""))
            rule.validation.value = true <;>
          simp [validateExternalApi, hb, h5, hjc, hhs, hsf, ht, hq]
    · intro hq
      by_cases hsf : (rule.save_fields.getD []).isEmpty <;>
        simp [validateExternalApi, hb, h5, hjc, hhs, hsf, ht, hq]
  · intro ht
    by_cases hsf : (rule.save_fields.getD []).isEmpty <;>
      simp [validateExternalApi, hb, h5, hjc, hhs, hsf, ht]

/-- C2 (witness): a truthy body with `apto = true` satisfies the strict
comparison and the rule succeeds. -/
theorem claim2_witness :
    (validateExternalApi ruleJsonApto testAthlete
      (.response 200 (.parsed (.obj [("apto", .bool true)])))).ok
      = true := by
  have h := claim2_json_compare_strict ruleJsonApto testAthlete 200
    (.obj [("apto", .bool true)]) rfl (by decide) (by decide)
  exact ((h.1 rfl).1).mpr (by decide)

/-- Infrastructure failures in the sense of C4: transport error (timeout
or network), an unexpected exception reaching the outer catch, an HTTP
5xx status, or a JSON parse failure on a rule in `json_compare` mode
(404 being intercepted earlier). -/
def infraFailure (rule : EligibilityRule) : FetchOutcome → Bool
  | .transportError _ => true
  | .unexpectedError => true
  | .response s .malformed =>
    decide (500 ≤ s) ||
      (s != 404 && rule.validation.mode == "json_compare")
  | .response s (.parsed _) => decide (500 ≤ s)

/-- C4 (counterexample): a rule whose `errorMessage` is SET to the empty
string, under `onError = 'block'` and a 500 response: the claim promises
`rule.errorMessage` whenever it is set, but `error_message || fallback`
treats the empty string as falsy and returns the generic fallback. -/
theorem claim4_counterexample :
    ruleEmptyMessage.error_message = some "" ∧
    validateExternalApi ruleEmptyMessage testAthlete
      (.response 500 .malformed) =
      { ok := false, message := some unexpectedErrMsg,
        extractedData := none } ∧
    some unexpectedErrMsg ≠ some "" :=
  ⟨rfl, rfl, by decide⟩

/-- C4 (amended): every infrastructure failure — network error, timeout,
HTTP 5xx, JSON parse failure under `json_compare`, or an unexpected
exception — is resolved by the `onError` policy: `allow` yields
`ok = true` with the advisory temporarily-unavailable message, anything
else yields `ok = false` with `rule.errorMessage`, falling back to the
generic message when `errorMessage` is unset OR EMPTY. -/
theorem claim4_onerror_policy (rule : EligibilityRule) (a : AthleteData)
    (o : FetchOutcome) (h : infraFailure rule o = true) :
    validateExternalApi rule a o =
      (if rule.on_error == "allow" then
        { ok := true, message := some tempUnavailableMsg,
          extractedData := none }
      else
        { ok := false,
          message := some (jsOrElse rule.error_message unexpectedErrMsg),
          extractedData := none }) := by
  cases o with
  | transportError t => rfl
  | unexpectedError => rfl
  | response s b =>
    cases b with
    | parsed j =>
      have h5 : 500 ≤ s := of_decide_eq_true h
      have hb : (s == 404) = false := beq_eq_false_iff_ne.mpr (by omega)
      simp [validateExternalApi, hb, h5, onErrorOutcome]
    | malformed =>
      by_cases h5 : 500 ≤ s
      · have hb : (s == 404) = false := beq_eq_false_iff_ne.mpr (by omega)
        simp [validateExternalApi, hb, h5, onErrorOutcome]
      · have h' : (s != 404 && rule.validation.mode == "json_compare")
            = true := by
          simp only [infraFailure, decide_eq_true_eq] at h
          rcases Bool.or_eq_true_iff.mp h with h1 | h2
          · exact absurd (of_decide_eq_true h1) h5
          · exact h2
        rw [Bool.and_eq_true] at h'
        have hb : (s == 404) = false := by simpa [bne] using h'.1
        have hjc : (rule.validation.mode == "json_compare") = true := h'.2
        simp [validateExternalApi, hb, h5, hjc, onErrorOutcome]

/-- C4 (witness): an `onError = 'allow'` rule under a timeout succeeds
with the advisory message. -/
theorem claim4_witness :
    validateExternalApi ruleAllowPolicy testAthlete
      (.transportError true) =
      { ok := true, message := some tempUnavailableMsg,
        extractedData := none } :=
  (claim4_onerror_policy ruleAllowPolicy testAthlete
    (.transportError true) rfl).trans rfl

/-- C5: `validateExternalApi` is total — every execution path, including
transport failure, any HTTP status, parse failure and the unexpected
exception absorbed by the outer catch, produces an `{ok, message?}`
result, and every failing result carries either the rule's
`errorMessage` or the generic fallback; consequently
`executeEligibilityCheck` always resolves to an `EligibilityResult`
whose verdict is an eligible/ineligible boolean. -/
theorem claim5_no_escape (rule : EligibilityRule) (a : AthleteData)
    (o : FetchOutcome) (rules : List EligibilityRule)
    (net : Nat → FetchOutcome) :
    ((validateExternalApi rule a o).ok = true ∨
      ((validateExternalApi rule a o).ok = false ∧
        ((validateExternalApi rule a o).message = rule.error_message ∨
         (validateExternalApi rule a o).message =
           some (jsOrElse rule.error_message unexpectedErrMsg)))) ∧
    (∃ res : EligibilityResult,
      executeEligibilityCheck a rules net = res ∧
      (res.eligible = true ∨ res.eligible = false)) := by
  constructor
  · cases o with
    | transportError t =>
      by_cases hal : (rule.on_error == "allow") = true <;>
        simp [validateExternalApi, onErrorOutcome, hal]
    | unexpectedError =>
      by_cases hal : (rule.on_error == "allow") = true <;>
        simp [validateExternalApi, onErrorOutcome, hal]
    | response s b =>
      by_cases hb : (s == 404) = true
      · simp [validateExternalApi, hb]
      · by_cases h5 : 500 ≤ s
        · by_cases hal : (rule.on_error == "allow") = true <;>
            simp [validateExternalApi, onErrorOutcome, hb, h5, hal]
        · cases b with
          | malformed =>
            by_cases hjc : (rule.validation.mode == "json_compare") = true
            · by_cases hal : (rule.on_error == "allow") = true <;>
                simp [validateExternalApi, onErrorOutcome, hb, h5, hjc, hal]
            · by_cases hhs : (rule.validation.mode == "http_status") = true <;>
                by_cases hsf : (rule.save_fields.getD []).isEmpty <;>
                  by_cases hc : s ∈ rule.validation.allowed_status.getD
                      [200] <;>
                    simp [validateExternalApi, hb, h5, hjc, hhs, hsf, hc]
          | parsed j =>
            by_cases hjc : (rule.validation.mode == "json_compare") = true <;>
              by_cases hhs : (rule.validation.mode == "http_status") = true <;>
                by_cases hsf : (rule.save_fields.getD []).isEmpty <;>
                  by_cases hc : s ∈ rule.validation.allowed_status.getD
                      [200] <;>
                    by_cases ht : j.truthy = true <;>
                      by_cases hq : jsStrictEq
                          (getNestedValue (some j)
                            (jsOrElse rule.validation.path ""))
                          rule.validation.value = true <;>
                        simp [validateExternalApi, hb, h5, hjc, hhs, hsf,
                          hc, ht, hq]
  · exact ⟨executeEligibilityCheck a rules net, rfl,
      Bool.eq_false_or_eq_true _⟩

/-- C6: disabled rules and rules without a request URL are filtered out
before evaluation, so they never influence the verdict, the messages or
the extracted data; and when the filter leaves nothing — every rule
disabled, or an empty list — the check short-circuits to exactly
`{eligible: true, messages: []}` (with no extracted data). -/
theorem claim6_inactive_rules_ignored (a : AthleteData)
    (rules : List EligibilityRule) (net : Nat → FetchOutcome) :
    executeEligibilityCheck a rules net =
      executeEligibilityCheck a (rules.filter activeRulePred) net ∧
    (rules.filter activeRulePred = [] →
      executeEligibilityCheck a rules net =
        { eligible := true, messages := [], extractedData := none }) := by
  have hf : (rules.filter activeRulePred).filter activeRulePred
      = rules.filter activeRulePred := by
    rw [List.filter_filter]
    simp only [Bool.and_self]
  constructor
  · simp only [executeEligibilityCheck, hf]
  · intro h
    simp [executeEligibilityCheck, h]

/-- C6 (witness): a single disabled rule is filtered out and the check
returns the trivial eligible result. -/
theorem claim6_witness :
    executeEligibilityCheck testAthlete [disabledRule]
      (fun _ => .unexpectedError) =
      { eligible := true, messages := [], extractedData := none } :=
  (claim6_inactive_rules_ignored testAthlete [disabledRule]
    (fun _ => .unexpectedError)).2 rfl

/-- C10: on a rule whose validation mode is neither `http_status` nor
`json_compare`, every non-404, non-5xx response makes the rule succeed
(fail-open on an unrecognized mode), with no message; when the body
parses to a truthy JSON value and `save_fields` is non-empty, the
extracted field values are carried along. -/
theorem claim10_unknown_mode_fail_open (rule : EligibilityRule)
    (a : AthleteData) (status : Nat) (body : BodyJson)
    (h1 : rule.validation.mode ≠ "http_status")
    (h2 : rule.validation.mode ≠ "json_compare")
    (h404 : status ≠ 404) (h5xx : status < 500) :
    (validateExternalApi rule a (.response status body)).ok = true ∧
    (validateExternalApi rule a (.response status body)).message = none ∧
    (∀ j : Json, body = .parsed j → j.truthy = true →
      rule.save_fields.getD [] ≠ [] →
      (validateExternalApi rule a (.response status body)).extractedData =
        some (extractFields j (rule.save_fields.getD []))) := by
  have hb : (status == 404) = false := beq_eq_false_iff_ne.mpr h404
  have h5 : ¬ (500 ≤ status) := by omega
  have hhs : (rule.validation.mode == "http_status") = false :=
    beq_eq_false_iff_ne.mpr h1
  have hjc : (rule.validation.mode == "json_compare") = false :=
    beq_eq_false_iff_ne.mpr h2
  refine ⟨?_, ?_, ?_⟩
  · cases body with
    | malformed =>
      by_cases hsf : (rule.save_fields.getD []).isEmpty <;>
        simp [validateExternalApi, hb, h5, hhs, hjc, hsf]
    | parsed j =>
      by_cases hsf : (rule.save_fields.getD []).isEmpty <;>
        by_cases ht : j.truthy = true <;>
          simp [validateExternalApi, hb, h5, hhs, hjc, hsf, ht]
  · cases body with
    | malformed =>
      by_cases hsf : (rule.save_fields.getD []).isEmpty <;>
        simp [validateExternalApi, hb, h5, hhs, hjc, hsf]
    | parsed j =>
      by_cases hsf : (rule.save_fields.getD []).isEmpty <;>
        by_cases ht : j.truthy = true <;>
          simp [validateExternalApi, hb, h5, hhs, hjc, hsf, ht]
  · intro j hbody ht hsf
    subst hbody
    have hsf' : (rule.save_fields.getD []).isEmpty = false := by
      simpa [List.isEmpty_iff] using hsf
    simp [validateExternalApi, hb, h5, hhs, hjc, hsf', ht]

/-- C10 (witness): an unrecognized mode with a 200 response and a truthy
body: the rule succeeds and carries the extracted `categoria` field. -/
theorem claim10_witness :
    (validateExternalApi ruleUnknownMode testAthlete
      (.response 200 (.parsed (.obj [("categoria", .str "PRO")])))).ok
        = true ∧
    (validateExternalApi ruleUnknownMode testAthlete
      (.response 200 (.parsed (.obj [("categoria", .str "PRO")])))).extractedData
        = some [("categoria", .str "PRO")] := by
  have h := claim10_unknown_mode_fail_open ruleUnknownMode testAthlete 200
    (.parsed (.obj [("categoria", .str "PRO")]))
    (by decide) (by decide) (by decide) (by decide)
  refine ⟨h.1, ?_⟩
  have h3 := h.2.2 (.obj [("categoria", .str "PRO")]) rfl rfl (by decide)
  exact h3.trans rfl
